import Mathlib

/-!
Verification development for the Feishu channel adapter
(src/nanobot/channels/feishu.py).  The Python source is shallowly
embedded: pure helpers become Lean functions, the stateful inbound
handler becomes an explicit state-passing function over the dedup
cache, and external SDK calls (download, reaction, message-bus
dispatch) are recorded as effects or supplied as oracle functions.
-/

namespace Feishu

/-! ### Bounded dedup cache (FeishuChannel._processed_message_ids, _on_message lines 671-680)

The Python OrderedDict with only-append insertion and FIFO popitem is
modelled as a list of identifiers in insertion order (oldest first).
-/

/-- Embeds the trim loop at feishu.py lines 679-680:
while len(cache) > 1000: popitem(last=False), i.e. pop the oldest
entry (list head) until the size is at or below 1000. -/
def evictOldest : List String → List String
  | [] => []
  | x :: xs => if xs.length + 1 > 1000 then evictOldest xs else x :: xs

/-- Embeds the dedup check-and-record sequence of _on_message lines
673-680 as a single cache update: an already-seen identifier leaves
the cache unchanged; a fresh one is appended and the cache trimmed. -/
def recordId (cache : List String) (id : String) : List String :=
  if id ∈ cache then cache else evictOldest (cache ++ [id])

/-- Records a whole sequence of identifiers starting from an empty cache. -/
def recordAll (ids : List String) : List String :=
  ids.foldl recordId []

/-! ### Inbound event model (_on_message lines 665-766)

The P2ImMessageReceiveV1 payload is modelled with the fields the
handler reads.  The JSON body of message.content is modelled as an
abstract decoded object: contentDecodes is true when json.loads
succeeds, contentFields are the string-valued fields of the decoded
object, and contentRaw is the raw string used by the fallback path.
-/

structure InboundEvent where
  messageId : String
  senderType : String
  senderOpenId : Option String
  chatId : String
  chatType : String
  msgType : String
  contentDecodes : Bool
  contentFields : List (String × String)
  contentRaw : String
deriving DecidableEq, Repr

/-- Observable side effects of handling one inbound event: the
acknowledgement reaction, each attempted resource download, and the
single hand-off to the message bus (_handle_message). -/
inductive Effect where
  | reaction (messageId : String)
  | download (fileKey : String)
  | dispatch (senderId replyTo content : String) (media : Option (List String))
      (messageId chatType msgType : String)
deriving DecidableEq, Repr

/-- Tests whether an effect is the message-bus dispatch. -/
def Effect.isDispatch : Effect → Bool
  | .dispatch _ _ _ _ _ _ _ => true
  | _ => false

/-- Number of message-bus dispatches in an effect list. -/
def dispatchCount (effs : List Effect) : Nat :=
  (effs.filter Effect.isDispatch).length

/-- Association-list lookup mirroring Python dict.get. -/
def findVal (k : String) : List (String × String) → Option String
  | [] => none
  | (k2, v) :: rest => if k = k2 then some v else findVal k rest

/-- Embeds MSG_TYPE_MAP (feishu.py lines 43-48). -/
def msgTypeMap : List (String × String) :=
  [("image", "[image]"), ("audio", "[audio]"), ("file", "[file]"), ("sticker", "[sticker]")]

/-- Embeds MSG_TYPE_MAP.get(msg_type, "[" + msg_type + "]") used at
lines 732 and 736. -/
def msgTypeTag (t : String) : String :=
  (findVal t msgTypeMap).getD ("[" ++ t ++ "]")

/-- Embeds the content assembly of _on_message lines 696-737: returns
(content_parts, media_paths, download effects).  The download oracle
dl models _download_file: it receives file_key, msg_type and
message_id and returns the local path on success. -/
def assembleContent (dl : String → String → String → Option String)
    (ev : InboundEvent) : List String × List String × List Effect :=
  if ev.msgType = "text" then
    if ev.contentDecodes then
      let t := (findVal "text" ev.contentFields).getD ""
      (if t = "" then [] else [t], [], [])
    else
      (if ev.contentRaw = "" then [] else [ev.contentRaw], [], [])
  else
    if ev.contentDecodes then
      let fk0 := (findVal "file_key" ev.contentFields).getD ""
      let fk := if fk0 = "" ∧ ev.msgType = "image" then
          (findVal "image_key" ev.contentFields).getD ""
        else fk0
      if fk = "" then
        ([msgTypeTag ev.msgType], [], [])
      else
        match dl fk ev.msgType ev.messageId with
        | some p => (["[" ++ ev.msgType ++ ": " ++ p ++ "]"], [p], [Effect.download fk])
        | none => (["[" ++ ev.msgType ++ ": download failed]"], [], [Effect.download fk])
    else
      ([msgTypeTag ev.msgType], [], [])

/-- Embeds the caption check of _on_message lines 740-747: a non-text
message whose decoded content carries a text field appends that field
(even when it is empty). -/
def captionParts (ev : InboundEvent) : List String :=
  if ev.msgType ≠ "text" ∧ ev.contentDecodes then
    match findVal "text" ev.contentFields with
    | some t => [t]
    | none => []
  else []

/-- Embeds _on_message (feishu.py lines 665-766) as a state transition
on the dedup cache that also returns the list of produced effects.
A duplicate identifier returns before any effect; a fresh identifier
is recorded (with FIFO trimming), then bot senders are dropped, and
otherwise the reaction, any download attempt, and exactly one bus
dispatch are produced. -/
def onMessage (dl : String → String → String → Option String)
    (cache : List String) (ev : InboundEvent) : List String × List Effect :=
  if ev.messageId ∈ cache then (cache, [])
  else
    let cache2 := evictOldest (cache ++ [ev.messageId])
    if ev.senderType = "bot" then (cache2, [])
    else
      let senderId := ev.senderOpenId.getD "unknown"
      let acc := assembleContent dl ev
      let parts := acc.1 ++ captionParts ev
      let mediaPaths := acc.2.1
      let content := if parts = [] then "[empty message]" else String.intercalate "\n" parts
      let replyTo := if ev.chatType = "group" then ev.chatId else senderId
      (cache2,
        Effect.reaction ev.messageId :: acc.2.2 ++
          [Effect.dispatch senderId replyTo content
            (if mediaPaths = [] then none else some mediaPaths)
            ev.messageId ev.chatType ev.msgType])

/-! ### Media classifier (_get_extension, feishu.py lines 170-201, and
the extension-priority logic of _download_file lines 258-266) -/

/-- Embeds the MIME-to-extension table ext_map (lines 173-190). -/
def mimeExtMap : List (String × String) :=
  [("image/jpeg", ".jpg"), ("image/png", ".png"), ("image/gif", ".gif"),
   ("image/webp", ".webp"), ("image/bmp", ".bmp"),
   ("audio/mpeg", ".mp3"), ("audio/mp4", ".m4a"), ("audio/ogg", ".ogg"),
   ("audio/wav", ".wav"), ("audio/x-wav", ".wav"),
   ("video/mp4", ".mp4"), ("video/webm", ".webm"),
   ("application/pdf", ".pdf"),
   ("application/msword", ".doc"),
   ("application/vnd.openxmlformats-officedocument.wordprocessingml.document", ".docx"),
   ("application/vnd.ms-excel", ".xls"),
   ("application/vnd.openxmlformats-officedocument.spreadsheetml.sheet", ".xlsx"),
   ("application/vnd.ms-powerpoint", ".ppt"),
   ("application/vnd.openxmlformats-officedocument.presentationml.presentation", ".pptx"),
   ("text/plain", ".txt"),
   ("application/zip", ".zip"),
   ("application/x-rar-compressed", ".rar"),
   ("application/octet-stream", ".bin")]

/-- Embeds the kind-to-extension table type_map (lines 194-200). -/
def typeExtMap : List (String × String) :=
  [("image", ".jpg"), ("file", ".bin"), ("audio", ".mp3"), ("video", ".mp4"), ("media", ".bin")]

/-- Embeds the MIME branch of _get_extension: a present, non-empty
MIME type that appears in ext_map yields its mapped extension
(the Python test if mime_type is falsy on None and on the empty string). -/
def mimeExt : Option String → Option String
  | some m => if m = "" then none else findVal m mimeExtMap
  | none => none

/-- Embeds _get_extension (lines 170-201): MIME lookup first, then the
kind-based default table, then ".bin". -/
def getExtension (msgType : String) (mimeType : Option String) : String :=
  match mimeExt mimeType with
  | some e => e
  | none => (findVal msgType typeExtMap).getD ".bin"

/-- Splits a character list on a separator character, mirroring
Python str.split with a one-character separator (the empty input
yields one empty field). -/
def splitOnChar (c : Char) : List Char → List (List Char)
  | [] => [[]]
  | x :: xs =>
    if x = c then [] :: splitOnChar c xs
    else
      match splitOnChar c xs with
      | h :: t => (x :: h) :: t
      | [] => [[x]]

/-- Splits a string on a separator character into strings. -/
def splitStr (c : Char) (s : String) : List String :=
  (splitOnChar c s.data).map String.mk

/-- Embeds pathlib name on a POSIX path string: the final component
after splitting on the separator, with empty and single-dot components
discarded. -/
def pathFinalName (s : String) : String :=
  (((splitStr '/' s).filter (fun p => p ≠ "" && p ≠ ".")).getLast?).getD ""

/-- Finds the index of the last occurrence of a character,
mirroring Python str.rfind. -/
def rfindChar (c : Char) : List Char → Option Nat
  | [] => none
  | x :: xs =>
    match rfindChar c xs with
    | some i => some (i + 1)
    | none => if x = c then some 0 else none

/-- Embeds pathlib suffix: the part of the final component from its
last dot, empty when the dot is absent, leading, or trailing
(the CPython condition 0 < i < len(name) - 1). -/
def pySuffix (s : String) : String :=
  let name := pathFinalName s
  match rfindChar '.' name.data with
  | some i => if 0 < i ∧ i + 1 < name.data.length then String.mk (name.data.drop i) else ""
  | none => ""

/-- Embeds lines 259-262 of _download_file: the extension taken from a
truthy declared file_name, empty otherwise. -/
def fnameExt : Option String → String
  | some n => if n = "" then "" else pySuffix n
  | none => ""

/-- Embeds lines 258-266 of _download_file: prefer the declared
filename's own extension; when that is empty fall back to
_get_extension on (msg_type, mime_type). -/
def resolveExtension (fileName : Option String) (msgType : String)
    (mimeType : Option String) : String :=
  if fnameExt fileName = "" then getExtension msgType mimeType else fnameExt fileName

/-! ### Filename sanitization (_download_file lines 272-278) -/

/-- Characters kept by the sanitizer: c.isalnum() or c in the set of
dot, underscore and hyphen.  Python str.isalnum is Unicode-aware; it
is modelled on the ASCII range, which covers every input the claims
mention. -/
def keepChar (c : Char) : Bool :=
  c.isAlphanum || c == '.' || c == '_' || c == '-'

/-- Embeds line 275: safe_name keeps exactly the characters accepted
by keepChar, in order, discarding everything else. -/
def sanitizeName (s : String) : String :=
  String.mk (s.data.filter keepChar)

/-- Judges whether writing media_dir / name stays strictly inside the
media directory: the name must be a real single path component, i.e.
non-empty, not a dot or dot-dot, and free of the path separator. -/
def staysInMediaDir (name : String) : Bool :=
  name ≠ "" && name ≠ "." && name ≠ ".." && !(name.data.contains '/')

/-! ### Upload orchestrator (_upload_image_sync lines 291-394,
_upload_file_sync lines 396-506, _upload_media lines 508-535)

Only the precondition phase before the create-image / create-file
request is logic of this repository; the request itself is an SDK
call.  The gate value records how far a call gets: unavailable
(missing client, returns None), rejectedBeforeNetwork (a precondition
failed, returns None with no network call), or sendRequest (the
create request is issued). -/

inductive UploadGate where
  | unavailable
  | rejectedBeforeNetwork
  | sendRequest
deriving DecidableEq, Repr

/-- Image size ceiling of line 321: 10 * 1024 * 1024 bytes. -/
def imageMaxBytes : Nat := 10 * 1024 * 1024

/-- Generic file size ceiling of line 425: 30 * 1024 * 1024 bytes. -/
def fileMaxBytes : Nat := 30 * 1024 * 1024

/-- Embeds the precondition sequence of _upload_image_sync (lines
301-321): client present, file exists, size non-zero, size at most
10 MiB; only then is the create-image request issued. -/
def uploadImageGate (clientReady fileExists : Bool) (fileSize : Nat) : UploadGate :=
  if !clientReady then .unavailable
  else if !fileExists then .rejectedBeforeNetwork
  else if fileSize = 0 then .rejectedBeforeNetwork
  else if fileSize > imageMaxBytes then .rejectedBeforeNetwork
  else .sendRequest

/-- Embeds the precondition sequence of _upload_file_sync (lines
406-425): client present, file exists, size non-zero, size at most
30 MiB; only then is the create-file request issued. -/
def uploadFileGate (clientReady fileExists : Bool) (fileSize : Nat) : UploadGate :=
  if !clientReady then .unavailable
  else if !fileExists then .rejectedBeforeNetwork
  else if fileSize = 0 then .rejectedBeforeNetwork
  else if fileSize > fileMaxBytes then .rejectedBeforeNetwork
  else .sendRequest

/-- Embeds image_exts of _upload_media line 520. -/
def imageExts : List String :=
  [".jpg", ".jpeg", ".png", ".gif", ".webp", ".bmp"]

/-- Lowercases a string character-wise, mirroring str.lower on ASCII. -/
def toLowerStr (s : String) : String :=
  String.mk (s.data.map Char.toLower)

/-- Embeds the categorization of _upload_media lines 518-533: an
extension in image_exts goes to the image uploader, everything else to
the file uploader.  Returns the category tag and the precondition
gate outcome for the given file state. -/
def uploadMediaGate (path : String) (fileExists : Bool) (fileSize : Nat) :
    String × UploadGate :=
  if toLowerStr (pySuffix path) ∈ imageExts then
    ("image", uploadImageGate true fileExists fileSize)
  else
    ("file", uploadFileGate true fileExists fileSize)

/-! ### Content renderer (_TABLE_RE lines 537-541, _parse_md_table
lines 543-559, _build_card_elements lines 561-573)

The table regex is embedded as a character-level backtracking matcher.
Each matcher returns the list of candidate end positions in the
backtracking priority order of the Python re engine (greedy
quantifiers longest-first, concatenation exploring the left operand's
alternatives in order), so the head of the list is the end position
the engine commits to, and scanning positions left to right gives
finditer's non-overlapping leftmost matches. -/

/-- Character class for the space and tab run of the regex. -/
def isWsTab (c : Char) : Bool := c == ' ' || c == '\t'

/-- Character class for the regex dot outside DOTALL mode: any
character but a newline. -/
def isDotChar (c : Char) : Bool := c != '\n'

/-- Character class of the separator-line body: hyphen, colon, pipe
and Python whitespace (which includes the newline). -/
def isSepChar (c : Char) : Bool :=
  c == '-' || c == ':' || c == '|' || c == ' ' || c == '\t' ||
  c == '\n' || c == '\r' || c == '\x0b' || c == '\x0c'

/-- Character at a position of the subject, when in range. -/
def charAt : List Char → Nat → Option Char
  | [], _ => none
  | c :: _, 0 => some c
  | _ :: cs, n + 1 => charAt cs n

/-- Length of the maximal run of class characters in a suffix. -/
def runLenAux (ok : Char → Bool) : List Char → Nat
  | [] => 0
  | c :: rest => if ok c then runLenAux ok rest + 1 else 0

/-- Length of the maximal run of class characters from a position. -/
def runLen (ok : Char → Bool) (cs : List Char) (p : Nat) : Nat :=
  runLenAux ok (cs.drop p)

/-- Matches one literal character. -/
def mLit (c : Char) (cs : List Char) (p : Nat) : List Nat :=
  match charAt cs p with
  | some c2 => if c2 = c then [p + 1] else []
  | none => []

/-- Matches a greedy star over a one-character class: candidate ends
from longest to shortest. -/
def mStar (ok : Char → Bool) (cs : List Char) (p : Nat) : List Nat :=
  let k := runLen ok cs p
  (List.range (k + 1)).map (fun i => p + (k - i))

/-- Matches a greedy plus over a one-character class: candidate ends
from longest down to one character, none when the class is absent. -/
def mPlus (ok : Char → Bool) (cs : List Char) (p : Nat) : List Nat :=
  let k := runLen ok cs p
  (List.range k).map (fun i => p + (k - i))

/-- Matches a greedy optional literal: consuming it is preferred. -/
def mOpt (c : Char) (cs : List Char) (p : Nat) : List Nat :=
  match charAt cs p with
  | some c2 => if c2 = c then [p + 1, p] else [p]
  | none => [p]

/-- Matches the MULTILINE caret: start of the subject or the position
just after a newline. -/
def mAnchor (cs : List Char) (p : Nat) : List Nat :=
  if p = 0 then [p]
  else
    match charAt cs (p - 1) with
    | some c => if c = '\n' then [p] else []
    | none => []

/-- Sequences two matchers, exploring alternatives in priority order. -/
def seqM (a b : List Char → Nat → List Nat) (cs : List Char) (p : Nat) : List Nat :=
  (a cs p).flatMap (b cs)

/-- Matches one header line of _TABLE_RE: caret, optional space or
tab run, pipe, at least one non-newline character, pipe, optional
space or tab run, newline. -/
def mHeader : List Char → Nat → List Nat :=
  seqM mAnchor (seqM (mStar isWsTab) (seqM (mLit '|') (seqM (mPlus isDotChar)
    (seqM (mLit '|') (seqM (mStar isWsTab) (mLit '\n'))))))

/-- Matches the delimiter line of _TABLE_RE, whose body is a run of
hyphen, colon, pipe or whitespace characters. -/
def mDelim : List Char → Nat → List Nat :=
  seqM mAnchor (seqM (mStar isWsTab) (seqM (mLit '|') (seqM (mPlus isSepChar)
    (seqM (mLit '|') (seqM (mStar isWsTab) (mLit '\n'))))))

/-- Matches one data line of _TABLE_RE, like the header but with an
optional trailing newline. -/
def mData : List Char → Nat → List Nat :=
  seqM mAnchor (seqM (mStar isWsTab) (seqM (mLit '|') (seqM (mPlus isDotChar)
    (seqM (mLit '|') (seqM (mStar isWsTab) (mOpt '\n'))))))

/-- Matches the greedy plus over data lines: after one data line,
further repetitions are preferred over stopping.  Fueled recursion;
every data line consumes at least three characters, so fuel exceeding
the subject length never runs out. -/
def mDataPlus : Nat → List Char → Nat → List Nat
  | 0, _, _ => []
  | fuel + 1, cs, p => (mData cs p).flatMap (fun q => mDataPlus fuel cs q ++ [q])

/-- End position of the _TABLE_RE match anchored at a position, when
one exists: header line, delimiter line, then one or more data lines,
committing to the backtracking engine's first success. -/
def tableMatchEnd (cs : List Char) (p : Nat) : Option Nat :=
  ((mHeader cs p).flatMap (fun q1 =>
    (mDelim cs q1).flatMap (fun q2 => mDataPlus (cs.length + 1) cs q2))).head?

/-- Scans positions left to right collecting the non-overlapping
matches of _TABLE_RE as (start, end) pairs, continuing each scan at
the previous match end, exactly as finditer does.  Fueled: the
position strictly increases at every step, so fuel beyond the subject
length plus one never runs out. -/
def scanFrom : Nat → List Char → Nat → List (Nat × Nat)
  | 0, _, _ => []
  | fuel + 1, cs, p =>
    if p > cs.length then []
    else
      match tableMatchEnd cs p with
      | some e => (p, e) :: scanFrom fuel cs e
      | none => scanFrom fuel cs (p + 1)

/-- All matches of _TABLE_RE in a subject, in order. -/
def findMatches (cs : List Char) : List (Nat × Nat) :=
  scanFrom (cs.length + 2) cs 0

/-- Python whitespace stripped by str.strip, on the ASCII range. -/
def pyIsSpace (c : Char) : Bool :=
  c == ' ' || c == '\t' || c == '\n' || c == '\r' || c == '\x0b' || c == '\x0c'

/-- Embeds str.strip(): drops leading and trailing whitespace. -/
def pyStrip (s : String) : String :=
  String.mk (((s.data.dropWhile pyIsSpace).reverse.dropWhile pyIsSpace).reverse)

/-- Embeds str.strip(pipe): drops leading and trailing pipe characters. -/
def stripPipes (s : String) : String :=
  String.mk (((s.data.dropWhile (· == '|')).reverse.dropWhile (· == '|')).reverse)

/-- The substring of a subject between two character positions. -/
def sliceStr (cs : List Char) (a b : Nat) : String :=
  String.mk ((cs.drop a).take (b - a))

/-- Embeds line 546 of _parse_md_table: strip the text, split on
newlines, strip each line, keep the non-empty ones. -/
def tlines (t : String) : List String :=
  ((splitStr '\n' (pyStrip t)).map pyStrip).filter (fun l => l ≠ "")

/-- Embeds the cell-splitting lambda of line 549: strip the pipes at
both ends, split on pipes, strip each cell. -/
def splitCells (l : String) : List String :=
  (splitStr '|' (stripPipes l)).map pyStrip

/-- One column of the Feishu table element: tag "column", sequential
name, header display name, width "auto" (line 552). -/
structure TableColumn where
  tag : String
  name : String
  displayName : String
  width : String
deriving DecidableEq, Repr

/-- The Feishu table element built at lines 554-559: page_size is the
row count plus one; each row is an ordered column-name-to-cell map. -/
structure FeishuTable where
  pageSize : Nat
  columns : List TableColumn
  rows : List (List (String × String))
deriving DecidableEq, Repr

/-- One element of the rendered card: a markdown block or a table. -/
inductive CardElem where
  | markdown (content : String)
  | table (t : FeishuTable)
deriving DecidableEq, Repr

/-- Embeds _parse_md_table (lines 543-559): fewer than three
non-empty lines fail; otherwise the first line gives the headers, the
third line onward the data rows, columns are named c0, c1, ... with
the header text as display name, and each row pads missing trailing
cells with the empty string and drops cells beyond the header count. -/
def parseMdTable (t : String) : Option FeishuTable :=
  let lines := tlines t
  if lines.length < 3 then none
  else
    let headers := splitCells (lines.getD 0 "")
    let rows := (lines.drop 2).map splitCells
    some
      { pageSize := rows.length + 1
        columns := headers.enum.map
          (fun p => TableColumn.mk "column" ("c" ++ toString p.1) p.2 "auto")
        rows := rows.map (fun r =>
          (List.range headers.length).map (fun i => ("c" ++ toString i, r.getD i ""))) }

/-- Embeds line 568: the element emitted for a matched table region is
the parsed table, or a markdown element with the raw matched text when
parsing fails. -/
def tableElemOrFallback (t : String) : CardElem :=
  match parseMdTable t with
  | some tb => CardElem.table tb
  | none => CardElem.markdown t

/-- Embeds the loop of _build_card_elements (lines 563-572): for each
match, emit the stripped non-empty preceding text as markdown, then
the table element (or its fallback); after the last match emit the
stripped non-empty trailing text. -/
def buildLoop (content : List Char) : List (Nat × Nat) → Nat → List CardElem
  | [], lastEnd =>
    let remaining := pyStrip (sliceStr content lastEnd content.length)
    if remaining = "" then [] else [CardElem.markdown remaining]
  | (s, e) :: ms, lastEnd =>
    let before := pyStrip (sliceStr content lastEnd s)
    let matchElem := tableElemOrFallback (sliceStr content s e)
    (if before = "" then [matchElem] else [CardElem.markdown before, matchElem]) ++
      buildLoop content ms e

/-- Embeds _build_card_elements (lines 561-573): the element list from
the match loop, or a single markdown element with the whole input when
that list is empty. -/
def buildCardElements (content : String) : List CardElem :=
  let cs := content.data
  let elems := buildLoop cs (findMatches cs) 0
  if elems = [] then [CardElem.markdown content] else elems

/-! ### Concrete values used to instantiate the theorems -/

/-- Download oracle that always fails, for concrete instantiations. -/
def noDl : String → String → String → Option String := fun _ _ _ => none

/-- A bot-sent text event with a fresh identifier. -/
def botEvent : InboundEvent :=
  { messageId := "m1", senderType := "bot", senderOpenId := some "ou_bot"
    chatId := "oc_1", chatType := "p2p", msgType := "text"
    contentDecodes := true, contentFields := [("text", "hi")], contentRaw := "raw" }

/-- An ordinary user-sent text event with a fresh identifier. -/
def userEvent : InboundEvent :=
  { messageId := "m2", senderType := "user", senderOpenId := some "ou_user"
    chatId := "oc_2", chatType := "group", msgType := "text"
    contentDecodes := true, contentFields := [("text", "hi")], contentRaw := "raw" }

/-- Distinct identifiers for the dedup-bound instantiation: the string
of n copies of the letter a. -/
def wId (n : Nat) : String := String.mk (List.replicate n 'a')

/-- A table region whose single data row has one cell more than the
header declares. -/
def wTableStr : String := "|h|\n|-|\n|1|2|\n"

/-- The parse of wTableStr: one column, one row, the extra cell dropped. -/
def wTable : FeishuTable :=
  ⟨2, [⟨"column", "c0", "h", "auto"⟩], [[("c0", "1")]]⟩

/-! ### Helper lemmas -/

/-- A value found in an association list whose values are all
non-empty is non-empty. -/
theorem findVal_ne_empty (l : List (String × String)) (hl : ∀ p ∈ l, p.2 ≠ "")
    {k v : String} (h : findVal k l = some v) : v ≠ "" := by
  induction l with
  | nil => simp [findVal] at h
  | cons p rest ih =>
    rw [findVal] at h
    split at h
    · cases h
      exact hl p (List.mem_cons_self p rest)
    · exact ih (fun q hq => hl q (List.mem_cons_of_mem p hq)) h

/-- The MIME branch of the classifier never yields an empty extension. -/
theorem mimeExt_ne_empty {mime : Option String} {e : String}
    (h : mimeExt mime = some e) : e ≠ "" := by
  cases mime with
  | none => simp [mimeExt] at h
  | some m =>
    rw [mimeExt] at h
    split at h
    · cases h
    · exact findVal_ne_empty mimeExtMap (by decide) h

/-- The classifier fallback never yields an empty extension. -/
theorem getExtension_ne_empty (mt : String) (mime : Option String) :
    getExtension mt mime ≠ "" := by
  rw [getExtension]
  cases hm : mimeExt mime with
  | some e => exact mimeExt_ne_empty hm
  | none =>
    cases hv : findVal mt typeExtMap with
    | some e => simpa using findVal_ne_empty typeExtMap (by decide) hv
    | none => simp

/-! ### Claim C3: filename sanitization -/

/-- Claim C3, counterexample: the sanitizer keeps dots, so the input
../../etc/passwd does not sanitize to etcpasswd as the claim states.
The four dots of the two parent-directory references survive. -/
theorem sanitize_passwd_counterexample :
    sanitizeName "../../etc/passwd" ≠ "etcpasswd" := by decide

/-- Claim C3 (amended): sanitizing keeps only alphanumeric characters
and dot, underscore, hyphen, discarding everything else; the input
../../etc/passwd sanitizes to ....etcpasswd (dots retained, separators
discarded), and that name still denotes a path strictly inside the
workspace media directory. -/
theorem sanitize_keeps_only_allowed :
    (∀ s : String, ∀ c ∈ (sanitizeName s).data, keepChar c = true) ∧
    sanitizeName "../../etc/passwd" = "....etcpasswd" ∧
    staysInMediaDir (sanitizeName "../../etc/passwd") = true := by
  refine ⟨?_, by decide, by decide⟩
  intro s c hc
  exact List.of_mem_filter hc

/-- Claim C3 witness: a character of the sanitized example output is
an allowed character. -/
theorem sanitize_keeps_only_allowed_witness : keepChar 'e' = true :=
  sanitize_keeps_only_allowed.1 "../../etc/passwd" 'e' (by decide)

/-! ### Claim C4: extension resolution is total with the stated priority -/

/-- Claim C4: extension resolution never returns the empty string, and
follows the priority: the declared filename's own extension when
present and non-empty, else the MIME lookup table, else the kind-based
default table, else .bin. -/
theorem resolveExtension_total (fn : Option String) (mt : String) (mime : Option String) :
    resolveExtension fn mt mime ≠ "" ∧
    (fnameExt fn ≠ "" → resolveExtension fn mt mime = fnameExt fn) ∧
    (fnameExt fn = "" → ∀ e, mimeExt mime = some e → resolveExtension fn mt mime = e) ∧
    (fnameExt fn = "" → mimeExt mime = none → ∀ e, findVal mt typeExtMap = some e →
      resolveExtension fn mt mime = e) ∧
    (fnameExt fn = "" → mimeExt mime = none → findVal mt typeExtMap = none →
      resolveExtension fn mt mime = ".bin") := by
  by_cases hf : fnameExt fn = ""
  · refine ⟨?_, fun h => absurd hf h, ?_, ?_, ?_⟩
    · rw [resolveExtension, if_pos hf]
      exact getExtension_ne_empty mt mime
    · intro _ e he
      rw [resolveExtension, if_pos hf, getExtension, he]
    · intro _ hm e hv
      rw [resolveExtension, if_pos hf, getExtension, hm, hv]
      rfl
    · intro _ hm hv
      rw [resolveExtension, if_pos hf, getExtension, hm, hv]
      rfl
  · refine ⟨?_, fun _ => by rw [resolveExtension, if_neg hf], ?_, ?_, ?_⟩
    · rw [resolveExtension, if_neg hf]
      exact hf
    · intro h; exact absurd h hf
    · intro h; exact absurd h hf
    · intro h; exact absurd h hf

/-- Claim C4 witness: a declared filename with an extension wins the
priority, and the result is non-empty. -/
theorem resolveExtension_total_witness :
    resolveExtension (some "report.pdf") "file" none ≠ "" ∧
    resolveExtension (some "report.pdf") "file" none = ".pdf" := by
  have h := resolveExtension_total (some "report.pdf") "file" none
  exact ⟨h.1, (h.2.1 (by decide)).trans (by decide)⟩

/-! ### Claim C5: upload preconditions -/

/-- Claim C5: upload preconditions are checked before any network
call; any oversize file is rejected before the create request, a file
of exactly 10 MiB + 1 byte categorized as image and a 30 MiB + 1 byte
generic file are rejected, and a 0-byte file of either category is
rejected, all returning absent. -/
theorem upload_preconditions :
    (∀ sz : Nat, sz > imageMaxBytes → uploadImageGate true true sz = .rejectedBeforeNetwork) ∧
    (∀ sz : Nat, sz > fileMaxBytes → uploadFileGate true true sz = .rejectedBeforeNetwork) ∧
    uploadMediaGate "a.png" true (imageMaxBytes + 1) = ("image", .rejectedBeforeNetwork) ∧
    uploadMediaGate "a.pdf" true (fileMaxBytes + 1) = ("file", .rejectedBeforeNetwork) ∧
    uploadImageGate true true 0 = .rejectedBeforeNetwork ∧
    uploadFileGate true true 0 = .rejectedBeforeNetwork := by
  refine ⟨?_, ?_, by decide, by decide, by decide, by decide⟩
  · intro sz h
    have h0 : ¬ sz = 0 := by
      intro h0
      rw [h0] at h
      exact absurd h (by decide)
    simp [uploadImageGate, h0, h]
  · intro sz h
    have h0 : ¬ sz = 0 := by
      intro h0
      rw [h0] at h
      exact absurd h (by decide)
    simp [uploadFileGate, h0, h]

/-- Claim C5 witness: the general oversize rejection at one byte over
the image ceiling. -/
theorem upload_preconditions_witness :
    uploadImageGate true true (imageMaxBytes + 1) = .rejectedBeforeNetwork :=
  upload_preconditions.1 (imageMaxBytes + 1) (by decide)

/-! ### Claim C6: table parse round-trip -/

/-- Claim C6: the round-trip input renders to exactly one table
element with columns c0 and c1 displaying a and b, and one row mapping
c0 to 1 and c1 to 2. -/
theorem table_round_trip :
    buildCardElements "|a|b|\n|-|-|\n|1|2|\n" =
      [CardElem.table
        ⟨2, [⟨"column", "c0", "a", "auto"⟩, ⟨"column", "c1", "b", "auto"⟩],
          [[("c0", "1"), ("c1", "2")]]⟩] := by decide

/-! ### Claim C7: mixed rendering preserves text order -/

/-- Claim C7: the mixed input renders to exactly three elements in
text order, markdown, table, markdown; and any input in which the
table pattern never matches renders to a single markdown element
holding the whole input (stripped of surrounding whitespace when that
leaves it non-empty). -/
theorem mixed_render :
    buildCardElements "intro\n\n|a|b|\n|-|-|\n|1|2|\n\noutro" =
      [CardElem.markdown "intro",
       CardElem.table
         ⟨2, [⟨"column", "c0", "a", "auto"⟩, ⟨"column", "c1", "b", "auto"⟩],
           [[("c0", "1"), ("c1", "2")]]⟩,
       CardElem.markdown "outro"] ∧
    (∀ content : String, findMatches content.data = [] →
      buildCardElements content =
        [CardElem.markdown (if pyStrip content = "" then content else pyStrip content)]) := by
  constructor
  · decide
  · intro content h
    rw [buildCardElements, h]
    have hs : sliceStr content.data 0 content.data.length = content := by
      rw [sliceStr, List.drop_zero, Nat.sub_zero, List.take_length]
    rw [buildLoop, hs]
    by_cases hp : pyStrip content = ""
    · simp [hp]
    · simp [hp]

/-- Claim C7 witness: an input with no table pattern renders to one
markdown element with the whole input. -/
theorem mixed_render_witness :
    buildCardElements "hello" = [CardElem.markdown "hello"] :=
  (mixed_render.2 "hello" (by decide)).trans (by decide)

/-! ### Claim C8: degradation on parse failure -/

/-- Claim C8: whenever table parsing fails, the element emitted for
the matched region is a markdown element carrying the raw matched
text, so rendering degrades instead of aborting. -/
theorem degrade_on_parse_failure (t : String) (h : parseMdTable t = none) :
    tableElemOrFallback t = CardElem.markdown t := by
  rw [tableElemOrFallback, h]

/-- Claim C8 witness: a single pipe-bounded line is not a parsable
table and degrades to markdown. -/
theorem degrade_on_parse_failure_witness :
    tableElemOrFallback "|x|" = CardElem.markdown "|x|" :=
  degrade_on_parse_failure "|x|" (by decide)

/-! ### Claim C10: row shape follows the header -/

/-- Claim C10: every parsed table has one entry per header column in
each emitted row, in column order; each row is built from its data
line's cells, dropping cells beyond the header count and padding
missing trailing cells with the empty string. -/
theorem rows_match_columns (t : String) (tb : FeishuTable)
    (h : parseMdTable t = some tb) :
    tb.rows.length = (tlines t).length - 2 ∧
    (∀ r ∈ tb.rows, r.length = tb.columns.length) ∧
    tb.rows = ((tlines t).drop 2).map (fun l =>
      (List.range tb.columns.length).map
        (fun i => ("c" ++ toString i, (splitCells l).getD i ""))) := by
  rw [parseMdTable] at h
  split at h
  · cases h
  · rw [Option.some.injEq] at h
    subst h
    refine ⟨by simp, ?_, ?_⟩
    · intro r hr
      rw [List.mem_map] at hr
      obtain ⟨cells, _, hcells⟩ := hr
      subst hcells
      simp only [List.length_map, List.length_range, List.enum_length]
    · rw [List.map_map]
      refine List.map_congr_left ?_
      intro l hl
      simp only [Function.comp_apply, List.length_map, List.enum_length]

/-- Claim C10 witness: the extra trailing cell of the single data row
of wTableStr is dropped, leaving one entry for the one header column. -/
theorem rows_match_columns_witness :
    wTable.rows.length = (tlines wTableStr).length - 2 ∧
    (∀ r ∈ wTable.rows, r.length = wTable.columns.length) :=
  ⟨(rows_match_columns wTableStr wTable (by decide)).1,
   (rows_match_columns wTableStr wTable (by decide)).2.1⟩

/-! ### Dedup cache lemmas -/

/-- Eviction leaves a cache at the capacity ceiling unchanged. -/
theorem evictOldest_of_le (l : List String) (h : l.length ≤ 1000) :
    evictOldest l = l := by
  cases l with
  | nil => rfl
  | cons x xs =>
    rw [evictOldest, if_neg]
    simpa using h

/-- Eviction on a cache one over the ceiling pops exactly the oldest
entry. -/
theorem evictOldest_of_1001 (l : List String) (h : l.length = 1001) :
    evictOldest l = l.tail := by
  cases l with
  | nil => simp at h
  | cons x xs =>
    rw [List.length_cons] at h
    rw [evictOldest, if_pos (by omega)]
    exact evictOldest_of_le xs (by omega)

/-- The newest entry survives eviction: it sits at the back and
eviction only pops from the front. -/
theorem mem_evictOldest_append (l : List String) (a : String) :
    a ∈ evictOldest (l ++ [a]) := by
  induction l with
  | nil => simp [evictOldest]
  | cons x xs ih =>
    rw [List.cons_append, evictOldest]
    split
    · exact ih
    · simp

/-- Recording distinct fresh identifiers while the cache stays within
capacity appends them without eviction. -/
theorem foldl_recordId_fresh (l : List String) : ∀ st : List String,
    (st ++ l).Nodup → (st ++ l).length ≤ 1000 → l.foldl recordId st = st ++ l := by
  induction l with
  | nil => intro st _ _; simp
  | cons a rest ih =>
    intro st hnd hlen
    have hdisj : List.Disjoint st (a :: rest) := (List.nodup_append.mp hnd).2.2
    have ha : a ∉ st := fun hmem => hdisj hmem (List.mem_cons_self a rest)
    have hlen2 : (st ++ [a]).length ≤ 1000 := by
      rw [List.length_append] at hlen ⊢
      rw [List.length_cons] at hlen
      simp only [List.length_singleton]
      omega
    have hstep : recordId st a = st ++ [a] := by
      rw [recordId, if_neg ha]
      exact evictOldest_of_le _ hlen2
    have hassoc : st ++ a :: rest = (st ++ [a]) ++ rest := by simp
    rw [List.foldl_cons, hstep, ih (st ++ [a]) (by rw [← hassoc]; exact hnd)
      (by rw [← hassoc]; exact hlen)]
    exact hassoc.symm

/-! ### Router effect lemmas -/

/-- Content assembly produces download effects only, never a bus
dispatch. -/
theorem assemble_no_dispatch (dl : String → String → String → Option String)
    (ev : InboundEvent) :
    (assembleContent dl ev).2.2.filter Effect.isDispatch = [] := by
  rw [assembleContent]
  dsimp only
  repeat' split
  all_goals rfl

/-- The cache after handling an event is exactly the dedup-set update
of recordId on the event identifier. -/
theorem onMessage_cache_eq_recordId (dl : String → String → String → Option String)
    (cache : List String) (ev : InboundEvent) :
    (onMessage dl cache ev).1 = recordId cache ev.messageId := by
  rw [onMessage, recordId]
  by_cases hm : ev.messageId ∈ cache
  · simp [hm]
  · by_cases hb : ev.senderType = "bot" <;> simp [hm, hb]

/-- A delivery whose identifier is already in the cache returns with
the cache unchanged and no effects at all. -/
theorem onMessage_dup (dl : String → String → String → Option String)
    (cache : List String) (ev : InboundEvent) (h : ev.messageId ∈ cache) :
    onMessage dl cache ev = (cache, []) := by
  rw [onMessage, if_pos h]

/-- The identifier strings used to instantiate the dedup bound are
pairwise distinct: the length of the replicated list recovers n. -/
theorem wId_injective : Function.Injective wId := by
  intro m n h
  have hd : List.replicate m 'a' = List.replicate n 'a' := congrArg String.data h
  have hlen := congrArg List.length hd
  simpa using hlen

/-- The 1001 instantiation identifiers are pairwise distinct. -/
theorem wIds_nodup : (wId 0 :: (List.range 1000).map (fun n => wId (n + 1))).Nodup := by
  have hinj : Function.Injective (fun n => wId (n + 1)) := by
    intro a b hab
    have hs := wId_injective hab
    omega
  refine List.nodup_cons.mpr ⟨?_, (List.nodup_range 1000).map hinj⟩
  intro hmem
  rw [List.mem_map] at hmem
  obtain ⟨a, _, ha⟩ := hmem
  have hs := wId_injective ha
  omega

/-! ### Claim C1: dedup yields a single dispatch -/

/-- Claim C1, counterexample: a bot-sent event with a fresh identifier
refutes the unqualified claim that the first delivery of a fresh
identifier results in exactly one downstream dispatch: it is recorded
but dispatched zero times. -/
theorem first_dispatch_counterexample :
    botEvent.messageId ∉ ([] : List String) ∧
    dispatchCount (onMessage noDl [] botEvent).2 = 0 := by
  exact ⟨by decide, rfl⟩

/-- Claim C1 (amended): for an event whose sender is not the bot, the
first delivery of a fresh identifier produces exactly one dispatch to
the message bus, and an immediately subsequent delivery carrying the
identical identifier is stopped silently — no reaction, download or
dispatch — with the cache unchanged. -/
theorem dedup_single_dispatch
    (dl dl2 : String → String → String → Option String) (cache : List String)
    (ev ev2 : InboundEvent) (hfresh : ev.messageId ∉ cache)
    (hbot : ev.senderType ≠ "bot") (hid : ev2.messageId = ev.messageId) :
    dispatchCount (onMessage dl cache ev).2 = 1 ∧
    onMessage dl2 (onMessage dl cache ev).1 ev2 = ((onMessage dl cache ev).1, []) := by
  have hmem : ev2.messageId ∈ (onMessage dl cache ev).1 := by
    rw [hid, onMessage_cache_eq_recordId, recordId, if_neg hfresh]
    exact mem_evictOldest_append cache ev.messageId
  constructor
  · rw [onMessage, if_neg hfresh]
    dsimp only
    rw [if_neg hbot]
    dsimp only
    simp [dispatchCount, List.filter_append, assemble_no_dispatch, Effect.isDispatch]
  · exact onMessage_dup dl2 _ ev2 hmem

/-- Claim C1 witness: a concrete user-sent text event dispatches once,
and its immediate redelivery is silent. -/
theorem dedup_single_dispatch_witness :
    dispatchCount (onMessage noDl [] userEvent).2 = 1 ∧
    onMessage noDl (onMessage noDl [] userEvent).1 userEvent =
      ((onMessage noDl [] userEvent).1, []) :=
  dedup_single_dispatch noDl noDl [] userEvent userEvent (by decide) (by decide) rfl

/-- Recording one identifier into a cache within the ceiling keeps it
within the ceiling. -/
theorem recordId_length_le (cache : List String) (id : String)
    (h : cache.length ≤ 1000) : (recordId cache id).length ≤ 1000 := by
  rw [recordId]
  split
  · exact h
  · by_cases hc : (cache ++ [id]).length ≤ 1000
    · rw [evictOldest_of_le _ hc]
      exact hc
    · have h1001 : (cache ++ [id]).length = 1001 := by
        rw [List.length_append] at hc ⊢
        simp only [List.length_singleton] at hc ⊢
        omega
      rw [evictOldest_of_1001 _ h1001]
      rw [List.length_tail, h1001]

/-! ### Claim C2: dedup cache bound and FIFO eviction -/

/-- Claim C2: recording an identifier never pushes the cache past
1000 entries, and eviction is FIFO: after recording 1001 distinct
identifiers into an empty cache, the surviving cache is exactly the
last 1000 identifiers in insertion order, so its size is at most 1000
and the first-inserted identifier is no longer a member. -/
theorem dedup_bound_1001 (x : String) (rest : List String)
    (hnd : (x :: rest).Nodup) (hlen : rest.length = 1000) :
    (∀ cache id, cache.length ≤ 1000 → (recordId cache id).length ≤ 1000) ∧
    recordAll (x :: rest) = rest ∧
    (recordAll (x :: rest)).length ≤ 1000 ∧
    x ∉ recordAll (x :: rest) := by
  refine And.intro (fun cache id h => recordId_length_le cache id h) ?_
  obtain hnil | ⟨ys, z, hz⟩ := rest.eq_nil_or_concat
  · rw [hnil] at hlen
    simp at hlen
  · rw [List.concat_eq_append] at hz
    subst hz
    have hsplit : x :: (ys ++ [z]) = (x :: ys) ++ [z] := by simp
    have hnd2 : ((x :: ys) ++ [z]).Nodup := hsplit ▸ hnd
    have hnodup_xys : (x :: ys).Nodup := (List.nodup_append.mp hnd2).1
    have hzmem : z ∉ x :: ys :=
      fun hm => (List.nodup_append.mp hnd2).2.2 hm (List.mem_singleton_self z)
    have hlys : ys.length = 999 := by
      rw [List.length_append] at hlen
      simpa using hlen
    have hfold : (x :: ys).foldl recordId [] = x :: ys := by
      have h := foldl_recordId_fresh (x :: ys) []
        (by simpa using hnodup_xys) (by simp [List.length_cons, hlys])
      simpa using h
    have hmain : recordAll (x :: (ys ++ [z])) = ys ++ [z] := by
      rw [recordAll, hsplit, List.foldl_append, hfold]
      rw [List.foldl_cons, List.foldl_nil, recordId, if_neg hzmem]
      rw [← hsplit]
      rw [evictOldest_of_1001 _ (by simp [List.length_cons, List.length_append, hlys])]
      rfl
    refine ⟨hmain, ?_, ?_⟩
    · rw [hmain, List.length_append]
      simp [hlys]
    · rw [hmain]
      exact (List.nodup_cons.mp hnd).1

/-- Claim C2 witness: 1001 concrete distinct identifiers, the
first-inserted one evicted and the size back at the ceiling. -/
theorem dedup_bound_1001_witness :
    recordAll (wId 0 :: (List.range 1000).map (fun n => wId (n + 1))) =
      (List.range 1000).map (fun n => wId (n + 1)) ∧
    (recordAll (wId 0 :: (List.range 1000).map (fun n => wId (n + 1)))).length ≤ 1000 ∧
    wId 0 ∉ recordAll (wId 0 :: (List.range 1000).map (fun n => wId (n + 1))) := by
  have h := dedup_bound_1001 (wId 0) _ wIds_nodup (by simp)
  exact ⟨h.2.1, h.2.2.1, h.2.2.2⟩

/-! ### Claim C9: bot events consume a dedup slot -/

/-- Claim C9: a fresh bot-sent event is recorded in the dedup cache
before the bot check drops it: it produces no effects, yet its
identifier is now a member of the cache, so an immediate redelivery of
the same identifier is dropped as already seen. -/
theorem bot_recorded_not_dispatched
    (dl dl2 : String → String → String → Option String) (cache : List String)
    (ev ev2 : InboundEvent) (hbot : ev.senderType = "bot")
    (hfresh : ev.messageId ∉ cache) (hid : ev2.messageId = ev.messageId) :
    (onMessage dl cache ev).2 = [] ∧
    ev.messageId ∈ (onMessage dl cache ev).1 ∧
    onMessage dl2 (onMessage dl cache ev).1 ev2 = ((onMessage dl cache ev).1, []) := by
  have hmem : ev.messageId ∈ (onMessage dl cache ev).1 := by
    rw [onMessage_cache_eq_recordId, recordId, if_neg hfresh]
    exact mem_evictOldest_append cache ev.messageId
  refine ⟨?_, hmem, ?_⟩
  · rw [onMessage, if_neg hfresh]
    dsimp only
    rw [if_pos hbot]
  · exact onMessage_dup dl2 _ ev2 (by rw [hid]; exact hmem)

/-- Claim C9 witness: the concrete bot event is recorded silently and
its redelivery is dropped. -/
theorem bot_recorded_not_dispatched_witness :
    (onMessage noDl [] botEvent).2 = [] ∧
    botEvent.messageId ∈ (onMessage noDl [] botEvent).1 ∧
    onMessage noDl (onMessage noDl [] botEvent).1 botEvent =
      ((onMessage noDl [] botEvent).1, []) :=
  bot_recorded_not_dispatched noDl noDl [] botEvent botEvent rfl (by decide) rfl

end Feishu
